import Mathlib

/-!
Verification of the shift/operation ledger of the taxi-driver shift tracker
(`src/main.py`, classes `Operation`, `Shift`, `Storage`, and the save-operation
guard of `ShiftPage._save_operation`).

Modelling conventions:
* `uuid.uuid4()` identifiers are modelled as natural numbers drawn from a
  fresh-name counter `nextId` carried in the store state; `uuid4` never
  repeats an identifier, which the counter captures exactly.
* ISO timestamp strings produced by `now_iso()` are modelled as natural
  numbers; each top-level store operation receives the current time as an
  explicit `now` argument (all `now_iso()` calls inside one operation are
  modelled as returning this same instant).
* The persisted JSON dictionary `self.data` is modelled by the fields of
  `Storage`: the `"shifts"` entry is a list of `ShiftDict` records (the raw
  dictionaries), `"active_shift_id"` is an `Option Nat`, and `"settings"` is
  a `Settings` record.  `Storage.shifts()` converts the raw dictionaries to
  `Shift` dataclass values and `Storage._save_shifts` converts back.
-/

/-- Python dataclass `Operation` (`src/main.py`). -/
structure Operation where
  id : Nat
  ts : Nat
  amount : Int
  comment : String
deriving DecidableEq, Repr

/-- Python dataclass `Shift` (`src/main.py`). -/
structure Shift where
  id : Nat
  start_ts : Nat
  end_ts : Option Nat
  operations : List Operation
deriving DecidableEq, Repr

/-- `Shift.income`: `sum(op.amount for op in self.operations if op.amount > 0)`. -/
def Shift.income (s : Shift) : Int :=
  ((s.operations.filter fun op => op.amount > 0).map Operation.amount).sum

/-- `Shift.expense`: `sum(-op.amount for op in self.operations if op.amount < 0)`. -/
def Shift.expense (s : Shift) : Int :=
  ((s.operations.filter fun op => op.amount < 0).map fun op => -op.amount).sum

/-- `Shift.total`: `sum(op.amount for op in self.operations)`. -/
def Shift.total (s : Shift) : Int :=
  (s.operations.map Operation.amount).sum

/-- The raw dictionary form of an operation as stored in `self.data["shifts"]`
(`asdict(op)` in `Storage._save_shifts`, `Operation(**od)` in `Storage.shifts`). -/
structure OpDict where
  id : Nat
  ts : Nat
  amount : Int
  comment : String
deriving DecidableEq, Repr

/-- The raw dictionary form of a shift as stored in `self.data["shifts"]`. -/
structure ShiftDict where
  id : Nat
  start_ts : Nat
  end_ts : Option Nat
  operations : List OpDict
deriving DecidableEq, Repr

/-- `Operation(**od)` in `Storage.shifts`. -/
def opOfDict (od : OpDict) : Operation :=
  ⟨od.id, od.ts, od.amount, od.comment⟩

/-- `asdict(op)` in `Storage._save_shifts`. -/
def dictOfOp (op : Operation) : OpDict :=
  ⟨op.id, op.ts, op.amount, op.comment⟩

/-- One element of the list comprehension in `Storage.shifts`. -/
def shiftOfDict (sd : ShiftDict) : Shift :=
  ⟨sd.id, sd.start_ts, sd.end_ts, sd.operations.map opOfDict⟩

/-- One element of the list comprehension in `Storage._save_shifts`. -/
def dictOfShift (s : Shift) : ShiftDict :=
  ⟨s.id, s.start_ts, s.end_ts, s.operations.map dictOfOp⟩

/-- The `"comments"` entry of the settings dictionary. -/
structure SettingsComments where
  income : List String
  expense : List String
deriving DecidableEq, Repr

/-- The `"settings"` entry of `self.data` (`default_data` in `src/main.py`). -/
structure Settings where
  comments : SettingsComments
  overlay_always_on_top : Bool
  overlay_opacity : Int
  overlay_frameless : Bool
  app_name : String
  toggle_hotkey : String
deriving DecidableEq, Repr

/-- `DEFAULT_TOGGLE_HOTKEY` constant. -/
def DEFAULT_TOGGLE_HOTKEY : String := "Ctrl+Shift+M"

/-- `OTHER_COMMENT_TEXT` constant. -/
def OTHER_COMMENT_TEXT : String := "Другое (ввести вручную)"

/-- `default_comments()` in `src/main.py`. -/
def default_comments : SettingsComments :=
  ⟨["Заказ", "Чаевые", "Бонус", "Доставка"],
   ["Бензин", "Штраф", "Ремонт", "Еда/Кофе"]⟩

/-- The `"settings"` part of `default_data()` in `src/main.py`. -/
def defaultSettings : Settings :=
  { comments := default_comments
    overlay_always_on_top := true
    overlay_opacity := 95
    overlay_frameless := false
    app_name := "Калькулятор таксиста"
    toggle_hotkey := DEFAULT_TOGGLE_HOTKEY }

/-- The in-memory state of the `Storage` class: the persisted dictionary
`self.data` (fields `shifts`, `active_shift_id`, `settings`) together with the
fresh-identifier counter `nextId` that models the `uuid.uuid4()` supply. -/
structure Storage where
  shifts : List ShiftDict
  active_shift_id : Option Nat
  settings : Settings
  nextId : Nat
deriving DecidableEq, Repr

/-- The store produced by `default_data()`: no shifts, no active shift. -/
def defaultStorage : Storage :=
  { shifts := [], active_shift_id := none, settings := defaultSettings, nextId := 0 }

/-- `Storage.shifts()`: convert every stored dictionary to a `Shift` value. -/
def Storage.shiftsList (st : Storage) : List Shift :=
  st.shifts.map shiftOfDict

/-- `Storage._save_shifts(shifts)`: store the dictionary form of the given
shifts (the subsequent `self.save()` writes the same data to disk). -/
def Storage.saveShifts (st : Storage) (xs : List Shift) : Storage :=
  { st with shifts := xs.map dictOfShift }

/-- The `for s in shifts: if s.id == sid: return s` lookup loop of
`Storage.get_active_shift` (first shift with the given id, if any). -/
def findShift? (xs : List Shift) (sid : Nat) : Option Shift :=
  xs.find? fun s => s.id == sid

/-- The body of `Storage.update_shift`: replace the first shift with the same
id as `u` by `u`; if none matches, append `u` (the `for ... else` clause). -/
def replaceFirst (xs : List Shift) (u : Shift) : List Shift :=
  match xs with
  | [] => [u]
  | s :: rest => if s.id == u.id then u :: rest else s :: replaceFirst rest u

/-- `Storage.update_shift(updated)`. -/
def Storage.update_shift (st : Storage) (u : Shift) : Storage :=
  st.saveShifts (replaceFirst st.shiftsList u)

/-- The shift-creation block shared by `Storage.get_active_shift` and
`Storage.end_shift_and_create_new`: make a fresh empty shift starting `now`,
append it, persist, and point `active_shift_id` at it. -/
def Storage.createActive (st : Storage) (now : Nat) : Shift × Storage :=
  let new_shift : Shift := ⟨st.nextId, now, none, []⟩
  let st1 := st.saveShifts (st.shiftsList ++ [new_shift])
  (new_shift, { st1 with active_shift_id := some new_shift.id, nextId := st.nextId + 1 })

/-- `Storage.get_active_shift()`: look the active id up among the stored
shifts; on a miss (no id, or id not found) create, persist and return a fresh
active shift. -/
def Storage.get_active_shift (st : Storage) (now : Nat) : Shift × Storage :=
  match st.active_shift_id with
  | some sid =>
    match findShift? st.shiftsList sid with
    | some s => (s, st)
    | none => st.createActive now
  | none => st.createActive now

/-- `Storage.end_shift_and_create_new()`. -/
def Storage.end_shift_and_create_new (st : Storage) (now : Nat) : Shift × Storage :=
  let current := (st.get_active_shift now).1
  let st1 := (st.get_active_shift now).2
  let st2 :=
    if current.end_ts = none then st1.update_shift { current with end_ts := some now }
    else st1
  st2.createActive now

/-- `Storage.reset_current_shift_operations()`. -/
def Storage.reset_current_shift_operations (st : Storage) (now : Nat) : Shift × Storage :=
  let current := (st.get_active_shift now).1
  let st1 := (st.get_active_shift now).2
  let cleared := { current with operations := ([] : List Operation) }
  (cleared, st1.update_shift cleared)

/-- `Storage.add_operation_to_active(amount, comment)`: no validation happens
here; an operation with a fresh id is unconditionally appended to the active
shift. -/
def Storage.add_operation_to_active (st : Storage) (now : Nat) (amount : Int)
    (comment : String) : Operation × Storage :=
  let current := (st.get_active_shift now).1
  let st1 := (st.get_active_shift now).2
  let op : Operation := ⟨st1.nextId, now, amount, comment⟩
  let updated := { current with operations := current.operations ++ [op] }
  (op, { st1.update_shift updated with nextId := st1.nextId + 1 })

/-- `Storage.delete_operation_from_shift(shift_id, op_id)`. -/
def Storage.delete_operation_from_shift (st : Storage) (shift_id op_id : Nat) : Storage :=
  match findShift? st.shiftsList shift_id with
  | none => st
  | some s =>
    st.update_shift { s with operations := s.operations.filter fun op => !(op.id == op_id) }

/-- `Storage.reset_all_history()`. -/
def Storage.reset_all_history (st : Storage) : Storage :=
  { st with shifts := [], active_shift_id := none }

/-- The loop body of `Storage.totals_all_time`: `amount >= 0` counts into
income, otherwise `-amount` counts into expense. -/
def totalsStep (acc : Int × Int) (op : Operation) : Int × Int :=
  if op.amount ≥ 0 then (acc.1 + op.amount, acc.2) else (acc.1, acc.2 + -op.amount)

/-- `Storage.totals_all_time()`. -/
def Storage.totals_all_time (st : Storage) : Int × Int × Int :=
  let p := st.shiftsList.foldl (fun acc s => s.operations.foldl totalsStep acc) (0, 0)
  (p.1, p.2, p.1 - p.2)

example : (defaultStorage.get_active_shift 3).1 = ⟨0, 3, none, []⟩ := by decide

example :
    ((defaultStorage.add_operation_to_active 0 1500 "Заказ").2.add_operation_to_active 0
      (-300) "Бензин").2.shiftsList
      = [⟨0, 0, none, [⟨1, 0, 1500, "Заказ"⟩, ⟨2, 0, -300, "Бензин"⟩]⟩] := by decide

example :
    (Shift.income ⟨0, 0, none, [⟨1, 0, 1500, "Заказ"⟩, ⟨2, 0, -300, "Бензин"⟩]⟩,
     Shift.expense ⟨0, 0, none, [⟨1, 0, 1500, "Заказ"⟩, ⟨2, 0, -300, "Бензин"⟩]⟩,
     Shift.total ⟨0, 0, none, [⟨1, 0, 1500, "Заказ"⟩, ⟨2, 0, -300, "Бензин"⟩]⟩)
      = (1500, 300, 1200) := by decide

/-- Python `str.strip()`: remove leading and trailing whitespace (character
level, so that proofs can evaluate it). -/
def pyStrip (l : List Char) : List Char :=
  ((l.dropWhile Char.isWhitespace).reverse.dropWhile Char.isWhitespace).reverse

/-- The digit-string to number conversion performed by Python `int(t)` on a
string of decimal digits. -/
def digitsToNat (l : List Char) : Nat :=
  l.foldl (fun n c => 10 * n + (c.toNat - 48)) 0

/-- `parse_amount(text)` from `src/main.py`.
`text.strip().replace(" ", "").replace(",", "")` is stripping followed by
removal of every space and comma; `t[0] == "-"` / `t[1:].isdigit()` /
`t.isdigit()` are the sign and digit tests (ASCII digits; Python
`str.isdigit` additionally accepts some non-ASCII digit characters, which no
UI text field here produces). -/
def parse_amount (text : String) : Option Int :=
  let t := (pyStrip text.data).filter fun c => !(c == ' ' || c == ',')
  match t with
  | [] => none
  | c :: rest =>
    if c = '-' then
      match rest with
      | [] => none
      | _ :: _ =>
        if rest.all Char.isDigit then some (-(digitsToNat rest : Int)) else none
    else if t.all Char.isDigit then some ((digitsToNat t : Int)) else none

/-- `ShiftPage._save_operation` (the only caller of
`Storage.add_operation_to_active` for new entries): the validation layer.
`comboEnabled`, `comboIndex` and `comboText` are the state of the comment
combo box; `dialogResult` is the outcome of the "Other" input dialog
(`none` = cancelled).  Every early `return` (warning dialog) leaves the store
untouched. -/
def save_operation (st : Storage) (now : Nat) (amountText : String)
    (comboEnabled : Bool) (comboIndex : Int) (comboText : String)
    (dialogResult : Option String) : Storage :=
  match parse_amount amountText with
  | none => st
  | some amt =>
    if amt = 0 then st
    else if comboEnabled = false ∨ comboIndex ≤ 0 then st
    else
      let chosen := String.mk (pyStrip comboText.data)
      if chosen = OTHER_COMMENT_TEXT then
        match dialogResult with
        | none => st
        | some text =>
          let comment := String.mk (pyStrip text.data)
          if comment = "" then st
          else (st.add_operation_to_active now amt comment).2
      else (st.add_operation_to_active now amt chosen).2

/-- The `"settings"` dictionary as it may come out of `json.loads`: any key
may be missing (`None` here). -/
structure RawSettings where
  comments : Option SettingsComments
  overlay_always_on_top : Option Bool
  overlay_opacity : Option Int
  overlay_frameless : Option Bool
  toggle_hotkey : Option String
  app_name : Option String
deriving DecidableEq, Repr

/-- The top-level dictionary as it may come out of `json.loads`: any key may
be missing.  A missing `"active_shift_id"` and a stored JSON `null` both load
as `None` in Python, so both are `none` here. -/
structure RawData where
  version : Option Nat
  settings : Option RawSettings
  shifts : Option (List ShiftDict)
  active_shift_id : Option (Option Nat)
deriving DecidableEq, Repr

/-- The content of a file on disk: either text that `json.loads` parses into
a data dictionary, or text on which it raises. -/
inductive FileData where
  | parsed (d : RawData)
  | corrupt (blob : String)
deriving DecidableEq, Repr

/-- The files the loader can touch: `main` is the content at `self.path`
(`taxi_calculator_data.json`), `aside` is the list of contents preserved
under any other name.  The code never writes any file other than
`self.path`, so `aside` can only ever stay as it is. -/
structure FS where
  main : Option FileData
  aside : List FileData
deriving DecidableEq, Repr

/-- `json.dumps(self.data)`: serialize the in-memory store; every key is
written out. -/
def rawOfStorage (st : Storage) : RawData :=
  { version := some 1
    settings := some
      { comments := some st.settings.comments
        overlay_always_on_top := some st.settings.overlay_always_on_top
        overlay_opacity := some st.settings.overlay_opacity
        overlay_frameless := some st.settings.overlay_frameless
        toggle_hotkey := some st.settings.toggle_hotkey
        app_name := some st.settings.app_name }
    shifts := some st.shifts
    active_shift_id := some st.active_shift_id }

/-- `Storage.save()`: overwrite `self.path` with the serialized store.  No
other file is created or renamed. -/
def fsSave (st : Storage) (fs : FS) : FS :=
  { fs with main := some (.parsed (rawOfStorage st)) }

/-- The `s.setdefault(...)` chain of `Storage.load` applied to a present
`"settings"` dictionary: every missing key is backfilled with its default. -/
def sanitizeSettings (rs : RawSettings) : Settings :=
  { comments := rs.comments.getD default_comments
    overlay_always_on_top := rs.overlay_always_on_top.getD true
    overlay_opacity := rs.overlay_opacity.getD 95
    overlay_frameless := rs.overlay_frameless.getD false
    toggle_hotkey := rs.toggle_hotkey.getD DEFAULT_TOGGLE_HOTKEY
    app_name := rs.app_name.getD "Калькулятор таксиста" }

/-- `self.data.setdefault("settings", default_data()["settings"])` followed by
the per-key `setdefault` chain. -/
def loadSettings (o : Option RawSettings) : Settings :=
  match o with
  | none => defaultSettings
  | some rs => sanitizeSettings rs

/-- A store holding exactly `default_data()`; the uuid supply is a model
parameter (uuid4 draws are globally fresh, independent of the store file). -/
def defaultDataStorage (nextId : Nat) : Storage :=
  { shifts := [], active_shift_id := none, settings := defaultSettings, nextId := nextId }

/-- `Storage.load()`: missing file or parse failure resets `self.data` to
defaults and writes it back to `self.path`; a parsed file has its missing
keys backfilled and is rewritten.  In every branch the only file written is
`self.path` itself. -/
def Storage.load (fs : FS) (nextId : Nat) : Storage × FS :=
  match fs.main with
  | none =>
    let st := defaultDataStorage nextId
    (st, fsSave st fs)
  | some (.corrupt _) =>
    let st := defaultDataStorage nextId
    (st, fsSave st fs)
  | some (.parsed raw) =>
    let st : Storage :=
      { shifts := raw.shifts.getD []
        active_shift_id := raw.active_shift_id.getD none
        settings := loadSettings raw.settings
        nextId := nextId }
    (st, fsSave st fs)

/-- The store operations named by the ledger invariant (spec §8): one step of
the Ledger Store interface. -/
inductive LedgerAction where
  | getActive (now : Nat)
  | addOp (now : Nat) (amount : Int) (comment : String)
  | delOp (shift_id op_id : Nat)
  | endAndNew (now : Nat)
  | resetOps (now : Nat)
  | resetAll
deriving DecidableEq, Repr

/-- Execute one ledger operation for its state effect. -/
def Storage.applyAction (st : Storage) (a : LedgerAction) : Storage :=
  match a with
  | .getActive now => (st.get_active_shift now).2
  | .addOp now amount comment => (st.add_operation_to_active now amount comment).2
  | .delOp shift_id op_id => st.delete_operation_from_shift shift_id op_id
  | .endAndNew now => (st.end_shift_and_create_new now).2
  | .resetOps now => (st.reset_current_shift_operations now).2
  | .resetAll => st.reset_all_history

/-- Run a sequence of ledger operations from the default empty store. -/
def runActions (acts : List LedgerAction) : Storage :=
  acts.foldl Storage.applyAction defaultStorage

/-- The store invariant maintained by every ledger operation:
every open shift is the one the active pointer names, the active pointer
names an existing open shift, shift ids are distinct, and all ids are below
the fresh-name counter. -/
structure StoreInv (st : Storage) : Prop where
  openActive : ∀ s ∈ st.shiftsList, s.end_ts = none → st.active_shift_id = some s.id
  activeOpen : ∀ sid, st.active_shift_id = some sid →
    ∃ s ∈ st.shiftsList, s.id = sid ∧ s.end_ts = none
  nodupIds : (st.shiftsList.map Shift.id).Nodup
  idsLt : ∀ s ∈ st.shiftsList, s.id < st.nextId

example : parse_amount "1 500" = some 1500 := by decide
example : parse_amount "-300" = some (-300) := by decide
example : parse_amount "0" = some 0 := by decide
example : parse_amount "" = none := by decide
example : parse_amount "-" = none := by decide
example : parse_amount "12a" = none := by decide

@[simp] lemma opOfDict_dictOfOp (op : Operation) : opOfDict (dictOfOp op) = op := rfl

@[simp] lemma dictOfOp_opOfDict (od : OpDict) : dictOfOp (opOfDict od) = od := rfl

@[simp] lemma shiftOfDict_dictOfShift (s : Shift) : shiftOfDict (dictOfShift s) = s := by
  cases s with
  | mk i st et ops => simp [shiftOfDict, dictOfShift, List.map_map, Function.comp_def]

@[simp] lemma dictOfShift_shiftOfDict (sd : ShiftDict) : dictOfShift (shiftOfDict sd) = sd := by
  cases sd with
  | mk i st et ops => simp [shiftOfDict, dictOfShift, List.map_map, Function.comp_def]

@[simp] lemma shiftOfDict_id (sd : ShiftDict) : (shiftOfDict sd).id = sd.id := rfl

@[simp] lemma shiftOfDict_end_ts (sd : ShiftDict) : (shiftOfDict sd).end_ts = sd.end_ts := rfl

@[simp] lemma dictOfShift_id (s : Shift) : (dictOfShift s).id = s.id := rfl

@[simp] lemma dictOfShift_end_ts (s : Shift) : (dictOfShift s).end_ts = s.end_ts := rfl

lemma map_roundtrip (xs : List Shift) : (xs.map dictOfShift).map shiftOfDict = xs := by
  simp [List.map_map, Function.comp_def]

@[simp] lemma shiftsList_saveShifts (st : Storage) (xs : List Shift) :
    (st.saveShifts xs).shiftsList = xs := by
  simp [Storage.shiftsList, Storage.saveShifts, List.map_map, Function.comp_def]

@[simp] lemma saveShifts_active (st : Storage) (xs : List Shift) :
    (st.saveShifts xs).active_shift_id = st.active_shift_id := rfl

@[simp] lemma saveShifts_settings (st : Storage) (xs : List Shift) :
    (st.saveShifts xs).settings = st.settings := rfl

@[simp] lemma saveShifts_nextId (st : Storage) (xs : List Shift) :
    (st.saveShifts xs).nextId = st.nextId := rfl

lemma saveShifts_self (st : Storage) : st.saveShifts st.shiftsList = st := by
  cases st with
  | mk sh a se n =>
    simp [Storage.saveShifts, Storage.shiftsList, List.map_map, Function.comp_def]

@[simp] lemma update_shift_shiftsList (st : Storage) (u : Shift) :
    (st.update_shift u).shiftsList = replaceFirst st.shiftsList u := by
  simp [Storage.update_shift]

@[simp] lemma update_shift_active (st : Storage) (u : Shift) :
    (st.update_shift u).active_shift_id = st.active_shift_id := rfl

@[simp] lemma update_shift_settings (st : Storage) (u : Shift) :
    (st.update_shift u).settings = st.settings := rfl

@[simp] lemma update_shift_nextId (st : Storage) (u : Shift) :
    (st.update_shift u).nextId = st.nextId := rfl

@[simp] lemma createActive_fst (st : Storage) (now : Nat) :
    (st.createActive now).1 = ⟨st.nextId, now, none, []⟩ := rfl

@[simp] lemma createActive_shiftsList (st : Storage) (now : Nat) :
    (st.createActive now).2.shiftsList = st.shiftsList ++ [⟨st.nextId, now, none, []⟩] := by
  simp only [Storage.createActive, Storage.shiftsList, Storage.saveShifts]
  exact map_roundtrip _

@[simp] lemma createActive_active (st : Storage) (now : Nat) :
    (st.createActive now).2.active_shift_id = some st.nextId := rfl

@[simp] lemma createActive_nextId (st : Storage) (now : Nat) :
    (st.createActive now).2.nextId = st.nextId + 1 := rfl

@[simp] lemma createActive_settings (st : Storage) (now : Nat) :
    (st.createActive now).2.settings = st.settings := rfl

lemma findShift?_cons_pos {x : Shift} {t : List Shift} {sid : Nat} (h : x.id = sid) :
    findShift? (x :: t) sid = some x := by
  simp only [findShift?]
  rw [List.find?_cons_of_pos _ (by simp [h])]

lemma findShift?_cons_neg {x : Shift} {t : List Shift} {sid : Nat} (h : x.id ≠ sid) :
    findShift? (x :: t) sid = findShift? t sid := by
  simp only [findShift?]
  rw [List.find?_cons_of_neg _ (by simp [h])]

lemma replaceFirst_cons_pos {x : Shift} {t : List Shift} {u : Shift} (h : x.id = u.id) :
    replaceFirst (x :: t) u = u :: t := by
  simp [replaceFirst, h]

lemma replaceFirst_cons_neg {x : Shift} {t : List Shift} {u : Shift} (h : x.id ≠ u.id) :
    replaceFirst (x :: t) u = x :: replaceFirst t u := by
  simp [replaceFirst, h]

lemma findShift?_eq_some {xs : List Shift} {sid : Nat} {s : Shift}
    (h : findShift? xs sid = some s) : s ∈ xs ∧ s.id = sid := by
  refine ⟨List.mem_of_find?_eq_some h, ?_⟩
  have := List.find?_some h
  simpa using this

lemma findShift?_eq_none {xs : List Shift} {sid : Nat}
    (h : findShift? xs sid = none) : ∀ s ∈ xs, s.id ≠ sid := by
  intro s hs
  have := List.find?_eq_none.mp h s hs
  simpa using this

lemma findShift?_isSome {xs : List Shift} {sid : Nat} {s : Shift}
    (hs : s ∈ xs) (hid : s.id = sid) : (findShift? xs sid).isSome := by
  rw [findShift?, List.find?_isSome]
  exact ⟨s, hs, by simp [hid]⟩

lemma findShift?_append_of_none {l1 : List Shift} (l2 : List Shift) {sid : Nat}
    (h : findShift? l1 sid = none) : findShift? (l1 ++ l2) sid = findShift? l2 sid := by
  induction l1 with
  | nil => simp
  | cons x t ih =>
    have hx : x.id ≠ sid := findShift?_eq_none h x (by simp)
    have h' : findShift? t sid = none := by
      simp only [findShift?] at h
      rw [List.find?_cons_of_neg _ (by simp [hx])] at h
      exact h
    simp only [findShift?, List.cons_append] at ih ⊢
    rw [List.find?_cons_of_neg _ (by simp [hx])]
    exact ih h'

lemma id_inj_of_nodup {xs : List Shift} (h : (xs.map Shift.id).Nodup) :
    ∀ a ∈ xs, ∀ b ∈ xs, a.id = b.id → a = b := by
  intro a ha b hb hab
  exact List.inj_on_of_nodup_map h ha hb hab

lemma replaceFirst_decomp {xs : List Shift} {u s : Shift}
    (h : findShift? xs u.id = some s) :
    ∃ l1 l2, xs = l1 ++ s :: l2 ∧ (∀ x ∈ l1, x.id ≠ u.id) ∧
      replaceFirst xs u = l1 ++ u :: l2 := by
  induction xs with
  | nil => simp [findShift?] at h
  | cons x t ih =>
    by_cases hx : x.id = u.id
    · have hxs : s = x := by
        rw [findShift?, List.find?_cons_of_pos _ (by simp [hx])] at h
        exact (Option.some.inj h).symm
      exact ⟨[], t, by simp [hxs], by simp, by simp [replaceFirst, hx]⟩
    · have h' : findShift? t u.id = some s := by
        rw [findShift?, List.find?_cons_of_neg _ (by simp [hx])] at h
        exact h
      obtain ⟨l1, l2, h1, h2, h3⟩ := ih h'
      refine ⟨x :: l1, l2, by simp [h1], ?_, by simp [replaceFirst, hx, h3]⟩
      intro y hy
      rcases List.mem_cons.mp hy with rfl | hy'
      · exact hx
      · exact h2 y hy'

lemma replaceFirst_of_none {xs : List Shift} {u : Shift}
    (h : findShift? xs u.id = none) : replaceFirst xs u = xs ++ [u] := by
  induction xs with
  | nil => simp [replaceFirst]
  | cons x t ih =>
    have hx : x.id ≠ u.id := findShift?_eq_none h x (by simp)
    have h' : findShift? t u.id = none := by
      rw [findShift?, List.find?_cons_of_neg _ (by simp [hx])] at h
      exact h
    simp [replaceFirst, hx, ih h']

lemma replaceFirst_self {xs : List Shift} {s : Shift}
    (h : findShift? xs s.id = some s) : replaceFirst xs s = xs := by
  obtain ⟨l1, l2, h1, _, h3⟩ := replaceFirst_decomp h
  rw [h3, h1]

lemma findShift?_replaceFirst_self {xs : List Shift} {u s : Shift}
    (h : findShift? xs s.id = some s) (hid : u.id = s.id) :
    findShift? (replaceFirst xs u) s.id = some u := by
  obtain ⟨l1, l2, _, h2, h3⟩ := replaceFirst_decomp (hid ▸ h)
  have hl1 : findShift? l1 s.id = none := by
    apply List.find?_eq_none.mpr
    intro x hx
    simpa [← hid] using h2 x hx
  rw [h3, findShift?_append_of_none _ hl1]
  simp only [findShift?]
  rw [List.find?_cons_of_pos _ (by simp [hid])]

lemma findShift?_replaceFirst_other {xs : List Shift} {u : Shift} {i : Nat}
    (h : i ≠ u.id) : findShift? (replaceFirst xs u) i = findShift? xs i := by
  have hui : u.id ≠ i := Ne.symm h
  induction xs with
  | nil =>
    show findShift? [u] i = findShift? [] i
    rw [findShift?_cons_neg hui]
  | cons x t ih =>
    by_cases hx : x.id = u.id
    · have hxi : x.id ≠ i := by rw [hx]; exact hui
      rw [replaceFirst_cons_pos hx, findShift?_cons_neg hui, findShift?_cons_neg hxi]
    · rw [replaceFirst_cons_neg hx]
      by_cases hxi : x.id = i
      · rw [findShift?_cons_pos hxi, findShift?_cons_pos hxi]
      · rw [findShift?_cons_neg hxi, findShift?_cons_neg hxi]
        exact ih

lemma storeInv_default : StoreInv defaultStorage := by
  constructor <;> simp [defaultStorage, Storage.shiftsList]

lemma nextId_not_mem (st : Storage) (hlt : ∀ s ∈ st.shiftsList, s.id < st.nextId) :
    findShift? st.shiftsList st.nextId = none := by
  cases hfs : findShift? st.shiftsList st.nextId with
  | none => rfl
  | some s =>
    obtain ⟨hm, hid⟩ := findShift?_eq_some hfs
    exact absurd (hid ▸ hlt s hm) (lt_irrefl _)

lemma storeInv_createActive (st : Storage) (now : Nat)
    (hnodup : (st.shiftsList.map Shift.id).Nodup)
    (hlt : ∀ s ∈ st.shiftsList, s.id < st.nextId)
    (hclosed : ∀ s ∈ st.shiftsList, s.end_ts ≠ none) :
    StoreInv (st.createActive now).2 := by
  constructor
  · intro s hs hopen
    simp only [createActive_shiftsList, List.mem_append, List.mem_singleton] at hs
    rcases hs with hs | rfl
    · exact absurd hopen (hclosed s hs)
    · simp
  · intro sid hsid
    simp only [createActive_active, Option.some.injEq] at hsid
    exact ⟨⟨st.nextId, now, none, []⟩, by simp, by simp [hsid]⟩
  · have hnotin : st.nextId ∉ st.shiftsList.map Shift.id := by
      intro hmem
      obtain ⟨s, hs, hid⟩ := List.mem_map.mp hmem
      exact absurd (hid ▸ hlt s hs) (lt_irrefl _)
    simp only [createActive_shiftsList, List.map_append]
    exact List.Nodup.append hnodup (List.nodup_singleton _)
      (by simpa [List.disjoint_singleton] using hnotin)
  · intro s hs
    simp only [createActive_shiftsList, List.mem_append, List.mem_singleton] at hs
    simp only [createActive_nextId]
    rcases hs with hs | rfl
    · exact Nat.lt_succ_of_lt (hlt s hs)
    · exact Nat.lt_succ_self _

lemma gas_spec (st : Storage) (now : Nat) (h : StoreInv st) :
    StoreInv (st.get_active_shift now).2 ∧
    (st.get_active_shift now).1.end_ts = none ∧
    (st.get_active_shift now).2.active_shift_id = some (st.get_active_shift now).1.id ∧
    (st.get_active_shift now).2.settings = st.settings ∧
    findShift? (st.get_active_shift now).2.shiftsList (st.get_active_shift now).1.id
      = some (st.get_active_shift now).1 ∧
    (∀ s ∈ st.shiftsList, s.end_ts = none → st.get_active_shift now = (s, st)) ∧
    ((st.get_active_shift now).2 = st ∨
      ((∀ s ∈ st.shiftsList, s.end_ts ≠ none) ∧
       (st.get_active_shift now).1 = ⟨st.nextId, now, none, []⟩ ∧
       (st.get_active_shift now).2.shiftsList = st.shiftsList ++ [⟨st.nextId, now, none, []⟩] ∧
       (st.get_active_shift now).2.nextId = st.nextId + 1)) := by
  rcases ha : st.active_shift_id with _ | sid
  · -- no active pointer: every shift is closed and a fresh one is created
    have hclosed : ∀ s ∈ st.shiftsList, s.end_ts ≠ none := by
      intro s hs hopen
      have := h.openActive s hs hopen
      rw [ha] at this
      cases this
    have hgas : st.get_active_shift now = st.createActive now := by
      simp [Storage.get_active_shift, ha]
    rw [hgas]
    refine ⟨storeInv_createActive st now h.nodupIds h.idsLt hclosed, by simp, by simp, by simp,
      ?_, ?_, Or.inr ⟨hclosed, by simp, by simp, by simp⟩⟩
    · rw [createActive_shiftsList, createActive_fst,
        findShift?_append_of_none _ (nextId_not_mem st h.idsLt), findShift?_cons_pos rfl]
    · intro s hs hopen
      exact absurd hopen (hclosed s hs)
  · -- active pointer set: under the invariant the lookup succeeds
    obtain ⟨s0, hs0mem, hs0id, hs0open⟩ := h.activeOpen sid ha
    obtain ⟨s, hfind⟩ := Option.isSome_iff_exists.mp (findShift?_isSome hs0mem hs0id)
    obtain ⟨hsmem, hsid⟩ := findShift?_eq_some hfind
    have hss0 : s = s0 := id_inj_of_nodup h.nodupIds s hsmem s0 hs0mem (by rw [hsid, hs0id])
    have hgas : st.get_active_shift now = (s, st) := by
      simp [Storage.get_active_shift, ha, hfind]
    rw [hgas]
    refine ⟨h, by rw [hss0]; exact hs0open, by rw [ha, hsid], rfl, by rw [hsid]; exact hfind,
      ?_, Or.inl rfl⟩
    intro s' hs' hopen'
    have hv := h.openActive s' hs' hopen'
    rw [ha] at hv
    have hsid' : s'.id = sid := (Option.some.inj hv).symm
    have hs's : s' = s := id_inj_of_nodup h.nodupIds s' hs' s hsmem (by rw [hsid', hsid])
    rw [hs's]

lemma findShift?_append_left {l1 : List Shift} (l2 : List Shift) {sid : Nat} {s : Shift}
    (h : findShift? l1 sid = some s) : findShift? (l1 ++ l2) sid = some s := by
  induction l1 with
  | nil => simp [findShift?] at h
  | cons x t ih =>
    by_cases hx : x.id = sid
    · rw [findShift?_cons_pos hx] at h
      rw [List.cons_append, findShift?_cons_pos hx]
      exact h
    · rw [findShift?_cons_neg hx] at h
      rw [List.cons_append, findShift?_cons_neg hx]
      exact ih h

lemma findShift?_append_singleton_ne {l : List Shift} {x : Shift} {i : Nat}
    (h : x.id ≠ i) : findShift? (l ++ [x]) i = findShift? l i := by
  cases hf : findShift? l i with
  | none => rw [findShift?_append_of_none _ hf, findShift?_cons_neg h]; rfl
  | some s => rw [findShift?_append_left _ hf]

lemma nodup_middle_ne {l1 l2 : List Shift} {s : Shift}
    (h : ((l1 ++ s :: l2).map Shift.id).Nodup) :
    (∀ x ∈ l1, x.id ≠ s.id) ∧ (∀ x ∈ l2, x.id ≠ s.id) := by
  rw [List.map_append, List.map_cons, List.nodup_append] at h
  obtain ⟨h1, h2, hdisj⟩ := h
  constructor
  · intro x hx hxid
    exact hdisj (List.mem_map_of_mem Shift.id hx) (by simp [hxid])
  · intro x hx hxid
    exact (List.nodup_cons.mp h2).1 (hxid ▸ List.mem_map_of_mem Shift.id hx)

lemma storeInv_update {st : Storage} {s u : Shift} (h : StoreInv st)
    (hfind : findShift? st.shiftsList s.id = some s)
    (hid : u.id = s.id) (hets : u.end_ts = s.end_ts) :
    StoreInv (st.update_shift u) := by
  obtain ⟨l1, l2, hxs, hl1, hrep⟩ :=
    replaceFirst_decomp (show findShift? st.shiftsList u.id = some s by rw [hid]; exact hfind)
  have hsmem : s ∈ st.shiftsList := by rw [hxs]; simp
  constructor
  · intro x hx hopen
    rw [update_shift_shiftsList, hrep] at hx
    rw [update_shift_active]
    simp only [List.mem_append, List.mem_cons] at hx
    rcases hx with hx | rfl | hx
    · exact h.openActive x (by rw [hxs]; simp [hx]) hopen
    · rw [hid]
      exact h.openActive s hsmem (by rw [← hets]; exact hopen)
    · exact h.openActive x (by rw [hxs]; simp [hx]) hopen
  · intro sid hsid
    rw [update_shift_active] at hsid
    obtain ⟨x, hxmem, hxid, hxopen⟩ := h.activeOpen sid hsid
    rw [update_shift_shiftsList, hrep]
    by_cases hxu : x = s
    · exact ⟨u, by simp, by rw [hid, ← hxu]; exact hxid, by rw [hets, ← hxu]; exact hxopen⟩
    · rw [hxs] at hxmem
      simp only [List.mem_append, List.mem_cons] at hxmem
      rcases hxmem with hx | hx | hx
      · exact ⟨x, by simp [hx], hxid, hxopen⟩
      · exact absurd hx hxu
      · exact ⟨x, by simp [hx], hxid, hxopen⟩
  · rw [update_shift_shiftsList, hrep]
    have : (l1 ++ u :: l2).map Shift.id = (l1 ++ s :: l2).map Shift.id := by
      simp [hid]
    rw [this, ← hxs]
    exact h.nodupIds
  · intro x hx
    rw [update_shift_shiftsList, hrep] at hx
    rw [update_shift_nextId]
    simp only [List.mem_append, List.mem_cons] at hx
    rcases hx with hx | rfl | hx
    · exact h.idsLt x (by rw [hxs]; simp [hx])
    · rw [hid]
      exact h.idsLt s hsmem
    · exact h.idsLt x (by rw [hxs]; simp [hx])

lemma storeInv_bumpNext {st : Storage} (h : StoreInv st) :
    StoreInv { st with nextId := st.nextId + 1 } := by
  constructor
  · exact h.openActive
  · exact h.activeOpen
  · exact h.nodupIds
  · intro s hs
    exact Nat.lt_succ_of_lt (h.idsLt s hs)

lemma storeInv_resetAll (st : Storage) : StoreInv st.reset_all_history := by
  constructor <;> simp [Storage.reset_all_history, Storage.shiftsList]

lemma closed_after_update (st1 : Storage) (A : Shift) (now : Nat)
    (hInv1 : StoreInv st1)
    (hAact : st1.active_shift_id = some A.id)
    (hAfind : findShift? st1.shiftsList A.id = some A) :
    (∀ x ∈ (st1.update_shift ⟨A.id, A.start_ts, some now, A.operations⟩).shiftsList,
        x.end_ts ≠ none) ∧
    ((st1.update_shift ⟨A.id, A.start_ts, some now, A.operations⟩).shiftsList.map
        Shift.id).Nodup ∧
    (∀ x ∈ (st1.update_shift ⟨A.id, A.start_ts, some now, A.operations⟩).shiftsList,
        x.id < st1.nextId) ∧
    findShift? (st1.update_shift ⟨A.id, A.start_ts, some now, A.operations⟩).shiftsList A.id
      = some ⟨A.id, A.start_ts, some now, A.operations⟩ ∧
    (∀ i, i ≠ A.id →
      findShift? (st1.update_shift ⟨A.id, A.start_ts, some now, A.operations⟩).shiftsList i
        = findShift? st1.shiftsList i) := by
  have hufind : findShift? st1.shiftsList
      (⟨A.id, A.start_ts, some now, A.operations⟩ : Shift).id = some A := hAfind
  obtain ⟨l1, l2, hxs, hl1, hrep⟩ := replaceFirst_decomp hufind
  have hl2 : ∀ x ∈ l2, x.id ≠ A.id := by
    have := @nodup_middle_ne l1 l2 A (by rw [← hxs]; exact hInv1.nodupIds)
    exact this.2
  have hmemlr : ∀ x, x ∈ l1 ∨ x ∈ l2 → x ∈ st1.shiftsList := by
    intro x hx
    rw [hxs]
    rcases hx with hx | hx <;> simp [hx]
  refine ⟨?_, ?_, ?_, ?_, ?_⟩
  · intro x hx hopen
    rw [update_shift_shiftsList, hrep] at hx
    simp only [List.mem_append, List.mem_cons] at hx
    rcases hx with hx | rfl | hx
    · have hxA := hInv1.openActive x (hmemlr x (Or.inl hx)) hopen
      rw [hAact] at hxA
      exact hl1 x hx (Option.some.inj hxA).symm
    · cases hopen
    · have hxA := hInv1.openActive x (hmemlr x (Or.inr hx)) hopen
      rw [hAact] at hxA
      exact hl2 x hx (Option.some.inj hxA).symm
  · rw [update_shift_shiftsList, hrep]
    have : (l1 ++ (⟨A.id, A.start_ts, some now, A.operations⟩ : Shift) :: l2).map Shift.id
        = (l1 ++ A :: l2).map Shift.id := by simp
    rw [this, ← hxs]
    exact hInv1.nodupIds
  · intro x hx
    rw [update_shift_shiftsList, hrep] at hx
    simp only [List.mem_append, List.mem_cons] at hx
    rcases hx with hx | rfl | hx
    · exact hInv1.idsLt x (hmemlr x (Or.inl hx))
    · exact hInv1.idsLt A (by rw [hxs]; simp)
    · exact hInv1.idsLt x (hmemlr x (Or.inr hx))
  · rw [update_shift_shiftsList]
    exact findShift?_replaceFirst_self hAfind rfl
  · intro i hi
    rw [update_shift_shiftsList]
    exact findShift?_replaceFirst_other hi

lemma end_shift_spec (st : Storage) (now : Nat) (h : StoreInv st) :
    StoreInv (st.end_shift_and_create_new now).2 ∧
    (st.end_shift_and_create_new now).1.end_ts = none ∧
    (st.end_shift_and_create_new now).2.active_shift_id
      = some (st.end_shift_and_create_new now).1.id ∧
    (st.end_shift_and_create_new now).1.id ∉ st.shiftsList.map Shift.id ∧
    (st.end_shift_and_create_new now).1.id ≠ (st.get_active_shift now).1.id ∧
    (st.end_shift_and_create_new now).1 ∈ (st.end_shift_and_create_new now).2.shiftsList ∧
    findShift? (st.end_shift_and_create_new now).2.shiftsList (st.get_active_shift now).1.id
      = some ⟨(st.get_active_shift now).1.id, (st.get_active_shift now).1.start_ts, some now,
          (st.get_active_shift now).1.operations⟩ ∧
    (∀ i, i ≠ (st.get_active_shift now).1.id → i ≠ (st.end_shift_and_create_new now).1.id →
      findShift? (st.end_shift_and_create_new now).2.shiftsList i
        = findShift? st.shiftsList i) ∧
    (st.end_shift_and_create_new now).2.settings = st.settings := by
  obtain ⟨hInv1, hAopen, hAact, hAset, hAfind, -, hdisj⟩ := gas_spec st now h
  have hAmem : (st.get_active_shift now).1 ∈ (st.get_active_shift now).2.shiftsList :=
    (findShift?_eq_some hAfind).1
  obtain ⟨hclosed2, hnodup2, hlt2, hfind2, hframe2⟩ :=
    closed_after_update (st.get_active_shift now).2 (st.get_active_shift now).1 now hInv1
      hAact hAfind
  have hr : st.end_shift_and_create_new now
      = ((st.get_active_shift now).2.update_shift
          ⟨(st.get_active_shift now).1.id, (st.get_active_shift now).1.start_ts, some now,
            (st.get_active_shift now).1.operations⟩).createActive now := by
    simp only [Storage.end_shift_and_create_new]
    rw [if_pos hAopen]
  have hnext2 : ((st.get_active_shift now).2.update_shift
      ⟨(st.get_active_shift now).1.id, (st.get_active_shift now).1.start_ts, some now,
        (st.get_active_shift now).1.operations⟩).nextId = (st.get_active_shift now).2.nextId :=
    update_shift_nextId _ _
  have hlt1 : ∀ x ∈ st.shiftsList, x.id < (st.get_active_shift now).2.nextId := by
    rcases hdisj with heq | ⟨-, -, -, hnext⟩
    · intro x hx
      rw [heq]
      exact h.idsLt x hx
    · intro x hx
      rw [hnext]
      exact Nat.lt_succ_of_lt (h.idsLt x hx)
  have hne : (st.get_active_shift now).2.nextId ≠ (st.get_active_shift now).1.id :=
    (hInv1.idsLt _ hAmem).ne'
  rw [hr]
  refine ⟨?_, ?_, ?_, ?_, ?_, ?_, ?_, ?_, ?_⟩
  · exact storeInv_createActive _ now hnodup2 (by rw [hnext2]; exact hlt2) hclosed2
  · simp
  · simp [hnext2]
  · rw [createActive_fst]
    intro hmem
    obtain ⟨x, hx, hxid⟩ := List.mem_map.mp hmem
    rw [hnext2] at hxid
    exact absurd (hlt1 x hx) (by rw [hxid]; exact lt_irrefl _)
  · rw [createActive_fst]
    simpa [hnext2] using hne
  · simp
  · rw [createActive_shiftsList]
    rw [findShift?_append_singleton_ne (by simpa [hnext2] using hne)]
    exact hfind2
  · intro i hiA hinew
    rw [createActive_fst] at hinew
    rw [createActive_shiftsList,
      findShift?_append_singleton_ne (by simpa [hnext2] using fun hh => hinew hh.symm),
      hframe2 i hiA]
    rcases hdisj with heq | ⟨-, hAeq, hsl, -⟩
    · rw [heq]
    · rw [hsl, findShift?_append_singleton_ne ?_]
      intro hh
      apply hiA
      rw [← hh, hAeq]
  · simp [hAset]

@[simp] lemma bump_shiftsList (st : Storage) (n : Nat) :
    ({ st with nextId := n } : Storage).shiftsList = st.shiftsList := rfl

@[simp] lemma bump_active (st : Storage) (n : Nat) :
    ({ st with nextId := n } : Storage).active_shift_id = st.active_shift_id := rfl

@[simp] lemma bump_settings (st : Storage) (n : Nat) :
    ({ st with nextId := n } : Storage).settings = st.settings := rfl

lemma add_op_spec (st : Storage) (now : Nat) (amount : Int) (comment : String)
    (h : StoreInv st) :
    StoreInv (st.add_operation_to_active now amount comment).2 ∧
    (st.add_operation_to_active now amount comment).1
      = ⟨(st.get_active_shift now).2.nextId, now, amount, comment⟩ ∧
    (st.add_operation_to_active now amount comment).2.active_shift_id
      = some (st.get_active_shift now).1.id ∧
    findShift? (st.add_operation_to_active now amount comment).2.shiftsList
        (st.get_active_shift now).1.id
      = some ⟨(st.get_active_shift now).1.id, (st.get_active_shift now).1.start_ts,
          (st.get_active_shift now).1.end_ts,
          (st.get_active_shift now).1.operations
            ++ [(st.add_operation_to_active now amount comment).1]⟩ ∧
    (st.add_operation_to_active now amount comment).2.settings = st.settings := by
  obtain ⟨hInv1, -, hAact, hAset, hAfind, -, -⟩ := gas_spec st now h
  have hEq : (st.add_operation_to_active now amount comment).2
      = { (st.get_active_shift now).2.update_shift
            ⟨(st.get_active_shift now).1.id, (st.get_active_shift now).1.start_ts,
              (st.get_active_shift now).1.end_ts,
              (st.get_active_shift now).1.operations
                ++ [⟨(st.get_active_shift now).2.nextId, now, amount, comment⟩]⟩ with
          nextId := ((st.get_active_shift now).2.update_shift
            ⟨(st.get_active_shift now).1.id, (st.get_active_shift now).1.start_ts,
              (st.get_active_shift now).1.end_ts,
              (st.get_active_shift now).1.operations
                ++ [⟨(st.get_active_shift now).2.nextId, now, amount, comment⟩]⟩).nextId + 1 } :=
    rfl
  refine ⟨?_, rfl, ?_, ?_, ?_⟩
  · rw [hEq]
    exact storeInv_bumpNext (storeInv_update hInv1 hAfind rfl rfl)
  · rw [hEq, bump_active, update_shift_active, hAact]
  · rw [hEq, bump_shiftsList, update_shift_shiftsList]
    exact findShift?_replaceFirst_self hAfind rfl
  · rw [hEq, bump_settings, update_shift_settings, hAset]

lemma storeInv_resetOps (st : Storage) (now : Nat) (h : StoreInv st) :
    StoreInv (st.reset_current_shift_operations now).2 := by
  obtain ⟨hInv1, -, -, -, hAfind, -, -⟩ := gas_spec st now h
  have hEq : (st.reset_current_shift_operations now).2
      = (st.get_active_shift now).2.update_shift
          ⟨(st.get_active_shift now).1.id, (st.get_active_shift now).1.start_ts,
            (st.get_active_shift now).1.end_ts, []⟩ := rfl
  rw [hEq]
  exact storeInv_update hInv1 hAfind rfl rfl

lemma delete_not_found (st : Storage) (sid oid : Nat)
    (hf : findShift? st.shiftsList sid = none) :
    st.delete_operation_from_shift sid oid = st := by
  simp [Storage.delete_operation_from_shift, hf]

lemma delete_found (st : Storage) (sid oid : Nat) (s : Shift)
    (hf : findShift? st.shiftsList sid = some s) :
    st.delete_operation_from_shift sid oid
      = st.update_shift ⟨s.id, s.start_ts, s.end_ts,
          s.operations.filter fun op => !(op.id == oid)⟩ := by
  simp [Storage.delete_operation_from_shift, hf]

lemma storeInv_delete (st : Storage) (sid oid : Nat) (h : StoreInv st) :
    StoreInv (st.delete_operation_from_shift sid oid) := by
  cases hf : findShift? st.shiftsList sid with
  | none => rw [delete_not_found st sid oid hf]; exact h
  | some s =>
    have hfind : findShift? st.shiftsList s.id = some s := by
      rw [(findShift?_eq_some hf).2]; exact hf
    rw [delete_found st sid oid s hf]
    exact storeInv_update h hfind rfl rfl

lemma storeInv_apply (st : Storage) (a : LedgerAction) (h : StoreInv st) :
    StoreInv (st.applyAction a) := by
  cases a with
  | getActive now => exact (gas_spec st now h).1
  | addOp now amount comment => exact (add_op_spec st now amount comment h).1
  | delOp sid oid => exact storeInv_delete st sid oid h
  | endAndNew now => exact (end_shift_spec st now h).1
  | resetOps now => exact storeInv_resetOps st now h
  | resetAll => exact storeInv_resetAll st

lemma storeInv_run (acts : List LedgerAction) : StoreInv (runActions acts) := by
  suffices hgen : ∀ st, StoreInv st → StoreInv (acts.foldl Storage.applyAction st) by
    exact hgen defaultStorage storeInv_default
  induction acts with
  | nil => intro st h; simpa using h
  | cons a t ih => intro st h; simpa using ih _ (storeInv_apply st a h)

lemma filter_length_le_one {xs : List Shift} {p : Shift → Bool} {c : Nat}
    (hc : ∀ x ∈ xs, p x = true → x.id = c)
    (hnodup : (xs.map Shift.id).Nodup) :
    (xs.filter p).length ≤ 1 := by
  induction xs with
  | nil => simp
  | cons x t ih =>
    rw [List.map_cons, List.nodup_cons] at hnodup
    by_cases hp : p x = true
    · have hxc : x.id = c := hc x (by simp) hp
      have ht : t.filter p = [] := by
        apply List.filter_eq_nil_iff.mpr
        intro y hy hpy
        have hyc : y.id = c := hc y (by simp [hy]) hpy
        exact hnodup.1 (by rw [hxc, ← hyc]; exact List.mem_map_of_mem Shift.id hy)
      rw [List.filter_cons_of_pos hp, ht]
      simp
    · rw [List.filter_cons_of_neg (by simpa using hp)]
      exact ih (fun y hy hpy => hc y (by simp [hy]) hpy) hnodup.2

lemma atMostOne_open (st : Storage) (h : StoreInv st) :
    (st.shiftsList.filter fun s => s.end_ts = none).length ≤ 1 := by
  rcases ha : st.active_shift_id with _ | sid
  · have hnil : st.shiftsList.filter (fun s => s.end_ts = none) = [] := by
      apply List.filter_eq_nil_iff.mpr
      intro s hs hp
      have hop : s.end_ts = none := by simpa using hp
      have := h.openActive s hs hop
      rw [ha] at this
      cases this
    simp [hnil]
  · refine @filter_length_le_one _ _ sid ?_ h.nodupIds
    intro x hx hp
    have hop : x.end_ts = none := by simpa using hp
    have := h.openActive x hx hop
    rw [ha] at this
    exact (Option.some.inj this).symm

lemma foldl_totalsStep (l : List Operation) (a b : Int) :
    l.foldl totalsStep (a, b)
      = (a + ((l.filter fun op => op.amount > 0).map Operation.amount).sum,
         b + ((l.filter fun op => op.amount < 0).map fun op => -op.amount).sum) := by
  induction l generalizing a b with
  | nil => simp
  | cons op t ih =>
    rw [List.foldl_cons]
    rcases lt_trichotomy op.amount 0 with hlt | heq | hgt
    · simp only [totalsStep, if_neg (not_le.mpr hlt)]
      rw [ih, List.filter_cons_of_neg (by simp only [decide_eq_true_eq]; omega),
        List.filter_cons_of_pos (by simp only [decide_eq_true_eq]; omega)]
      simp [add_assoc]
    · simp only [totalsStep, if_pos (le_of_eq heq.symm)]
      rw [ih, List.filter_cons_of_neg (by simp only [decide_eq_true_eq]; omega),
        List.filter_cons_of_neg (by simp only [decide_eq_true_eq]; omega)]
      simp [heq]
    · simp only [totalsStep, if_pos (le_of_lt hgt)]
      rw [ih, List.filter_cons_of_pos (by simp only [decide_eq_true_eq]; omega),
        List.filter_cons_of_neg (by simp only [decide_eq_true_eq]; omega)]
      simp [add_assoc]

lemma foldl_shifts_totals (xs : List Shift) (a b : Int) :
    xs.foldl (fun acc s => s.operations.foldl totalsStep acc) (a, b)
      = (a + (xs.map Shift.income).sum, b + (xs.map Shift.expense).sum) := by
  induction xs generalizing a b with
  | nil => simp
  | cons s t ih =>
    rw [List.foldl_cons, foldl_totalsStep, ih]
    simp [Shift.income, Shift.expense, add_assoc]

lemma sum_map_sub (xs : List Shift) :
    (xs.map fun s => s.income - s.expense).sum
      = (xs.map Shift.income).sum - (xs.map Shift.expense).sum := by
  induction xs with
  | nil => simp
  | cons s t ih =>
    simp only [List.map_cons, List.sum_cons, ih]
    ring

lemma income_append (s : Shift) (op : Operation) :
    Shift.income ⟨s.id, s.start_ts, s.end_ts, s.operations ++ [op]⟩
      = s.income + (if op.amount > 0 then op.amount else 0) := by
  simp only [Shift.income, List.filter_append, List.map_append, List.sum_append]
  by_cases hp : op.amount > 0
  · rw [List.filter_cons_of_pos (by simpa using hp)]
    simp [if_pos hp]
  · rw [List.filter_cons_of_neg (by simpa using hp)]
    simp [if_neg hp]

lemma expense_append (s : Shift) (op : Operation) :
    Shift.expense ⟨s.id, s.start_ts, s.end_ts, s.operations ++ [op]⟩
      = s.expense + (if op.amount < 0 then -op.amount else 0) := by
  simp only [Shift.expense, List.filter_append, List.map_append, List.sum_append]
  by_cases hp : op.amount < 0
  · rw [List.filter_cons_of_pos (by simpa using hp)]
    simp [if_pos hp]
  · rw [List.filter_cons_of_neg (by simpa using hp)]
    simp [if_neg hp]

lemma total_append (s : Shift) (op : Operation) :
    Shift.total ⟨s.id, s.start_ts, s.end_ts, s.operations ++ [op]⟩ = s.total + op.amount := by
  simp [Shift.total]

lemma filter_ne_of_not_mem {l : List Operation} {oid : Nat}
    (h : oid ∉ l.map Operation.id) : (l.filter fun op => !(op.id == oid)) = l := by
  induction l with
  | nil => rfl
  | cons op t ih =>
    simp only [List.map_cons, List.mem_cons] at h
    push_neg at h
    rw [List.filter_cons_of_pos (by simp; exact fun hh => h.1 hh.symm), ih h.2]

/-- C1: starting from the default empty store, any sequence of Ledger Store
operations (`get_active_shift`, `add_operation`, `delete_operation`,
`end_active_shift_and_start_new`, `reset_active_shift_operations`,
`reset_all_history`) leaves at most one shift with `end_ts = none`. -/
theorem claim1_at_most_one_active_shift (acts : List LedgerAction) :
    ((runActions acts).shiftsList.filter fun s => s.end_ts = none).length ≤ 1 :=
  atMostOne_open _ (storeInv_run acts)

/-- C4: `totals_all_time` returns exactly the componentwise sum over all
shifts of the per-shift triple `(income(), expense(), income() - expense())`,
for every store (zero-amount operations included): the `amount >= 0` versus
`amount > 0` classification difference is invisible because a zero amount
contributes zero to income either way. -/
theorem claim4_totals_all_time_eq_sum (st : Storage) :
    st.totals_all_time
      = ((st.shiftsList.map Shift.income).sum,
         (st.shiftsList.map Shift.expense).sum,
         (st.shiftsList.map fun s => s.income - s.expense).sum) := by
  simp only [Storage.totals_all_time]
  rw [foldl_shifts_totals]
  simp [sum_map_sub]

/-- C5: serializing the shifts with `_save_shifts`, persisting with `save`,
and reloading with `load` reproduces the identical shift list (ids,
`start_ts`, `end_ts`, operations and their order), the same
`active_shift_id`, and the same settings. -/
theorem claim5_roundtrip (st : Storage) (xs : List Shift) (fs : FS) (nid : Nat) :
    (Storage.load (fsSave (st.saveShifts xs) fs) nid).1.shiftsList = xs ∧
    (Storage.load (fsSave (st.saveShifts xs) fs) nid).1.shifts = (st.saveShifts xs).shifts ∧
    (Storage.load (fsSave (st.saveShifts xs) fs) nid).1.active_shift_id
      = st.active_shift_id ∧
    (Storage.load (fsSave (st.saveShifts xs) fs) nid).1.settings = st.settings :=
  ⟨shiftsList_saveShifts st xs, rfl, rfl, rfl⟩

/-- C7: `delete_operation_from_shift` with an absent `shift_id`, or with an
existing shift but an absent `op_id`, raises nothing and returns the store
completely unchanged. -/
theorem claim7_delete_absent_noop (st : Storage) (sid oid : Nat)
    (h : findShift? st.shiftsList sid = none ∨
      ∃ s, findShift? st.shiftsList sid = some s ∧ oid ∉ s.operations.map Operation.id) :
    st.delete_operation_from_shift sid oid = st := by
  rcases h with h | ⟨s, hf, hoid⟩
  · exact delete_not_found st sid oid h
  · rw [delete_found st sid oid s hf, filter_ne_of_not_mem hoid]
    have hfind : findShift? st.shiftsList s.id = some s := by
      rw [(findShift?_eq_some hf).2]; exact hf
    show st.update_shift s = st
    rw [Storage.update_shift, replaceFirst_self hfind, saveShifts_self]

/-- Witness for C7 at a concrete store: deleting operation id `99`, which is
not present in the single shift, returns the store unchanged. -/
theorem claim7_witness :
    (findShift? (⟨[⟨0, 0, none, [⟨1, 0, 5, "Заказ"⟩]⟩], some 0, defaultSettings,
        2⟩ : Storage).shiftsList 0 = none ∨
      ∃ s, findShift? (⟨[⟨0, 0, none, [⟨1, 0, 5, "Заказ"⟩]⟩], some 0, defaultSettings,
        2⟩ : Storage).shiftsList 0 = some s ∧ 99 ∉ s.operations.map Operation.id) ∧
    (⟨[⟨0, 0, none, [⟨1, 0, 5, "Заказ"⟩]⟩], some 0, defaultSettings,
        2⟩ : Storage).delete_operation_from_shift 0 99
      = ⟨[⟨0, 0, none, [⟨1, 0, 5, "Заказ"⟩]⟩], some 0, defaultSettings, 2⟩ :=
  ⟨Or.inr ⟨⟨0, 0, none, [⟨1, 0, 5, "Заказ"⟩]⟩, by decide, by decide⟩,
   claim7_delete_absent_noop _ 0 99
     (Or.inr ⟨⟨0, 0, none, [⟨1, 0, 5, "Заказ"⟩]⟩, by decide, by decide⟩)⟩

/-- C10: deleting from an existing shift removes exactly the operations whose
id matches (all of them if duplicated), keeps the remaining operations in
their relative order, modifies only that one shift in place, and leaves the
other shifts, the active-shift pointer, the settings and the id supply
unchanged. -/
theorem claim10_delete_existing_frame (st : Storage) (sid oid : Nat) (s : Shift)
    (h : findShift? st.shiftsList sid = some s) :
    (st.delete_operation_from_shift sid oid).settings = st.settings ∧
    (st.delete_operation_from_shift sid oid).active_shift_id = st.active_shift_id ∧
    (st.delete_operation_from_shift sid oid).nextId = st.nextId ∧
    (∃ l1 l2, st.shiftsList = l1 ++ s :: l2 ∧
      (st.delete_operation_from_shift sid oid).shiftsList
        = l1 ++ (⟨s.id, s.start_ts, s.end_ts,
            s.operations.filter fun op => !(op.id == oid)⟩ : Shift) :: l2) ∧
    (s.operations.filter fun op => !(op.id == oid)).Sublist s.operations ∧
    (∀ op ∈ s.operations, op.id ≠ oid →
      op ∈ s.operations.filter fun op => !(op.id == oid)) ∧
    (∀ op ∈ s.operations.filter fun op => !(op.id == oid), op.id ≠ oid) := by
  have hfind : findShift? st.shiftsList s.id = some s := by
    rw [(findShift?_eq_some h).2]; exact h
  obtain ⟨l1, l2, hxs, -, hrep⟩ := replaceFirst_decomp
    (show findShift? st.shiftsList
      (⟨s.id, s.start_ts, s.end_ts, s.operations.filter fun op => !(op.id == oid)⟩ : Shift).id
      = some s from hfind)
  rw [delete_found st sid oid s h]
  refine ⟨update_shift_settings _ _, update_shift_active _ _, update_shift_nextId _ _,
    ⟨l1, l2, hxs, by rw [update_shift_shiftsList, hrep]⟩, List.filter_sublist _, ?_, ?_⟩
  · intro op hop hne
    rw [List.mem_filter]
    exact ⟨hop, by simp [hne]⟩
  · intro op hop
    have := (List.mem_filter.mp hop).2
    simpa using this

/-- Witness for C10: deleting operation id `1` from the only shift removes
exactly that operation and leaves everything else unchanged. -/
theorem claim10_witness :
    findShift? (⟨[⟨0, 0, none, [⟨1, 0, 5, "Заказ"⟩, ⟨2, 0, -3, "Бензин"⟩]⟩], some 0,
        defaultSettings, 3⟩ : Storage).shiftsList 0
      = some ⟨0, 0, none, [⟨1, 0, 5, "Заказ"⟩, ⟨2, 0, -3, "Бензин"⟩]⟩ ∧
    ((⟨[⟨0, 0, none, [⟨1, 0, 5, "Заказ"⟩, ⟨2, 0, -3, "Бензин"⟩]⟩], some 0,
        defaultSettings, 3⟩ : Storage).delete_operation_from_shift 0 1).settings
      = defaultSettings ∧
    ((⟨[⟨0, 0, none, [⟨1, 0, 5, "Заказ"⟩, ⟨2, 0, -3, "Бензин"⟩]⟩], some 0,
        defaultSettings, 3⟩ : Storage).delete_operation_from_shift 0 1).shiftsList
      = [⟨0, 0, none, [⟨2, 0, -3, "Бензин"⟩]⟩] :=
  ⟨by decide,
   (claim10_delete_existing_frame _ 0 1 ⟨0, 0, none, [⟨1, 0, 5, "Заказ"⟩, ⟨2, 0, -3, "Бензин"⟩]⟩
     (by decide)).1,
   by decide⟩

/-- C2 counterexample: `Storage.add_operation_to_active` itself performs no
validation and raises nothing: called on the default store with `amount = 0`
and an empty comment it mutates the store, appending and persisting a
zero-amount, empty-comment operation. -/
theorem claim2_counterexample :
    (defaultStorage.add_operation_to_active 0 0 "").2 ≠ defaultStorage ∧
    findShift? (defaultStorage.add_operation_to_active 0 0 "").2.shiftsList 0
      = some ⟨0, 0, none, [⟨1, 0, 0, ""⟩]⟩ := by
  decide

/-- C2 (amended): validation happens in the UI save path, not in the store.
`ShiftPage._save_operation` leaves the store untouched whenever the amount
text does not parse or parses to 0, or when the "Other" comment dialog is
cancelled or returns a blank string; `Storage.add_operation_to_active`
itself never validates (see the counterexample). -/
theorem claim2_save_operation_validates (st : Storage) (now : Nat) (amountText : String)
    (comboEnabled : Bool) (comboIndex : Int) (comboText : String)
    (dialogResult : Option String)
    (h : parse_amount amountText = none ∨ parse_amount amountText = some 0 ∨
      (String.mk (pyStrip comboText.data) = OTHER_COMMENT_TEXT ∧
        (dialogResult = none ∨
          ∃ t, dialogResult = some t ∧ String.mk (pyStrip t.data) = ""))) :
    save_operation st now amountText comboEnabled comboIndex comboText dialogResult = st := by
  rcases h with h0 | h0 | ⟨hother, hdlg⟩
  · simp [save_operation, h0]
  · simp [save_operation, h0]
  · cases hp : parse_amount amountText with
    | none => simp [save_operation, hp]
    | some amt =>
      simp only [save_operation, hp]
      by_cases hz : amt = 0
      · rw [if_pos hz]
      · rw [if_neg hz]
        by_cases hcb : comboEnabled = false ∨ comboIndex ≤ 0
        · rw [if_pos hcb]
        · rw [if_neg hcb, if_pos hother]
          rcases hdlg with rfl | ⟨t, rfl, ht⟩
          · rfl
          · simp [ht]

/-- Witness for the amended C2: entering the text "0" aborts the save and
leaves the default store unchanged. -/
theorem claim2_witness :
    (parse_amount "0" = none ∨ parse_amount "0" = some 0 ∨
      (String.mk (pyStrip "Заказ".data) = OTHER_COMMENT_TEXT ∧
        ((none : Option String) = none ∨
          ∃ t, (none : Option String) = some t ∧ String.mk (pyStrip t.data) = ""))) ∧
    save_operation defaultStorage 0 "0" true 1 "Заказ" none = defaultStorage :=
  ⟨Or.inr (Or.inl (by decide)),
   claim2_save_operation_validates defaultStorage 0 "0" true 1 "Заказ" none
     (Or.inr (Or.inl (by decide)))⟩

/-- C3 counterexample: on a store whose `active_shift_id` is `None` while an
open shift (id 5) is present — a state `load` accepts from disk unchanged —
`get_active_shift` does not return the shift with `end_ts = None`: it
creates and returns a brand-new shift (id 6) instead. -/
theorem claim3_counterexample :
    ((⟨[⟨5, 0, none, []⟩], none, defaultSettings, 6⟩ : Storage).shiftsList.filter
        fun s => s.end_ts = none).length = 1 ∧
    (∀ s ∈ (⟨[⟨5, 0, none, []⟩], none, defaultSettings, 6⟩ : Storage).shiftsList,
      s.end_ts = none → s.id = 5) ∧
    ((⟨[⟨5, 0, none, []⟩], none, defaultSettings, 6⟩ : Storage).get_active_shift 7).1.id = 6 := by
  decide

/-- C3 (amended): on every store satisfying the active-shift invariant (which
holds in every state reachable from the default store), `get_active_shift`
returns the shift with `end_ts = None` and leaves the store unchanged when
one exists; otherwise it creates a shift with `start_ts = now`,
`end_ts = None` and no operations, appends and persists it, marks it active
and returns it.  The function is total: it never fails. -/
theorem claim3_get_active_shift_spec (st : Storage) (now : Nat) (h : StoreInv st) :
    (st.get_active_shift now).1.end_ts = none ∧
    (st.get_active_shift now).2.active_shift_id = some (st.get_active_shift now).1.id ∧
    (∀ s ∈ st.shiftsList, s.end_ts = none → st.get_active_shift now = (s, st)) ∧
    ((∀ s ∈ st.shiftsList, s.end_ts ≠ none) →
      (st.get_active_shift now).1 = ⟨st.nextId, now, none, []⟩ ∧
      (st.get_active_shift now).2.shiftsList
        = st.shiftsList ++ [(st.get_active_shift now).1] ∧
      (st.get_active_shift now).2.nextId = st.nextId + 1) := by
  obtain ⟨-, hopen, hact, -, hfind, hfound, hdisj⟩ := gas_spec st now h
  refine ⟨hopen, hact, hfound, ?_⟩
  intro hclosed
  rcases hdisj with heq | ⟨-, h1, h2, h3⟩
  · rw [heq] at hfind
    exact absurd hopen (hclosed _ (findShift?_eq_some hfind).1)
  · refine ⟨h1, ?_, h3⟩
    rw [h1]
    exact h2

/-- Witness for the amended C3 at the default (empty) store. -/
theorem claim3_witness :
    StoreInv defaultStorage ∧
    ((defaultStorage.get_active_shift 0).1.end_ts = none ∧
     (defaultStorage.get_active_shift 0).2.active_shift_id
       = some (defaultStorage.get_active_shift 0).1.id ∧
     (∀ s ∈ defaultStorage.shiftsList, s.end_ts = none →
        defaultStorage.get_active_shift 0 = (s, defaultStorage)) ∧
     ((∀ s ∈ defaultStorage.shiftsList, s.end_ts ≠ none) →
        (defaultStorage.get_active_shift 0).1 = ⟨defaultStorage.nextId, 0, none, []⟩ ∧
        (defaultStorage.get_active_shift 0).2.shiftsList
          = defaultStorage.shiftsList ++ [(defaultStorage.get_active_shift 0).1] ∧
        (defaultStorage.get_active_shift 0).2.nextId = defaultStorage.nextId + 1)) :=
  ⟨storeInv_default, claim3_get_active_shift_spec defaultStorage 0 storeInv_default⟩

/-- C6: calling `end_shift_and_create_new` twice in a row closes the first
active shift with the first call's timestamp and the second call leaves that
record untouched (same `end_ts`, same everything); each call activates a
fresh shift whose id differs from every id previously in the store. -/
theorem claim6_end_shift_twice (st : Storage) (t1 t2 : Nat) (h : StoreInv st) :
    findShift? (st.end_shift_and_create_new t1).2.shiftsList (st.get_active_shift t1).1.id
      = some ⟨(st.get_active_shift t1).1.id, (st.get_active_shift t1).1.start_ts, some t1,
          (st.get_active_shift t1).1.operations⟩ ∧
    findShift? ((st.end_shift_and_create_new t1).2.end_shift_and_create_new t2).2.shiftsList
        (st.get_active_shift t1).1.id
      = some ⟨(st.get_active_shift t1).1.id, (st.get_active_shift t1).1.start_ts, some t1,
          (st.get_active_shift t1).1.operations⟩ ∧
    (st.end_shift_and_create_new t1).2.active_shift_id
      = some (st.end_shift_and_create_new t1).1.id ∧
    ((st.end_shift_and_create_new t1).2.end_shift_and_create_new t2).2.active_shift_id
      = some ((st.end_shift_and_create_new t1).2.end_shift_and_create_new t2).1.id ∧
    (st.end_shift_and_create_new t1).1.id ∉ st.shiftsList.map Shift.id ∧
    ((st.end_shift_and_create_new t1).2.end_shift_and_create_new t2).1.id
      ∉ (st.end_shift_and_create_new t1).2.shiftsList.map Shift.id := by
  obtain ⟨hInv1, hs1open, hs1act, hs1fresh, hs1ne, hs1mem, hfind1, -, -⟩ := end_shift_spec st t1 h
  obtain ⟨-, -, -, -, -, hfound2, -⟩ := gas_spec (st.end_shift_and_create_new t1).2 t2 hInv1
  have hA2 : (st.end_shift_and_create_new t1).2.get_active_shift t2
      = ((st.end_shift_and_create_new t1).1, (st.end_shift_and_create_new t1).2) :=
    hfound2 _ hs1mem hs1open
  obtain ⟨-, -, hs2act, hs2fresh, -, -, -, hframe2, -⟩ :=
    end_shift_spec (st.end_shift_and_create_new t1).2 t2 hInv1
  have hAid_mem : (st.get_active_shift t1).1.id
      ∈ (st.end_shift_and_create_new t1).2.shiftsList.map Shift.id :=
    List.mem_map.mpr ⟨_, (findShift?_eq_some hfind1).1, rfl⟩
  have hne2 : (st.get_active_shift t1).1.id
      ≠ ((st.end_shift_and_create_new t1).2.end_shift_and_create_new t2).1.id := by
    intro hh
    apply hs2fresh
    rw [← hh]
    exact hAid_mem
  have hneA2 : (st.get_active_shift t1).1.id
      ≠ ((st.end_shift_and_create_new t1).2.get_active_shift t2).1.id := by
    rw [hA2]
    exact Ne.symm hs1ne
  refine ⟨hfind1, ?_, hs1act, hs2act, hs1fresh, hs2fresh⟩
  rw [hframe2 _ hneA2 hne2]
  exact hfind1

/-- Witness for C6: two consecutive shift changes from the default store. -/
theorem claim6_witness :
    StoreInv defaultStorage ∧
    (findShift? (defaultStorage.end_shift_and_create_new 0).2.shiftsList
        (defaultStorage.get_active_shift 0).1.id
      = some ⟨(defaultStorage.get_active_shift 0).1.id,
          (defaultStorage.get_active_shift 0).1.start_ts, some 0,
          (defaultStorage.get_active_shift 0).1.operations⟩ ∧
    findShift?
        ((defaultStorage.end_shift_and_create_new 0).2.end_shift_and_create_new 1).2.shiftsList
        (defaultStorage.get_active_shift 0).1.id
      = some ⟨(defaultStorage.get_active_shift 0).1.id,
          (defaultStorage.get_active_shift 0).1.start_ts, some 0,
          (defaultStorage.get_active_shift 0).1.operations⟩ ∧
    (defaultStorage.end_shift_and_create_new 0).2.active_shift_id
      = some (defaultStorage.end_shift_and_create_new 0).1.id ∧
    ((defaultStorage.end_shift_and_create_new 0).2.end_shift_and_create_new 1).2.active_shift_id
      = some ((defaultStorage.end_shift_and_create_new 0).2.end_shift_and_create_new 1).1.id ∧
    (defaultStorage.end_shift_and_create_new 0).1.id ∉ defaultStorage.shiftsList.map Shift.id ∧
    ((defaultStorage.end_shift_and_create_new 0).2.end_shift_and_create_new 1).1.id
      ∉ (defaultStorage.end_shift_and_create_new 0).2.shiftsList.map Shift.id) :=
  ⟨storeInv_default, claim6_end_shift_twice defaultStorage 0 1 storeInv_default⟩

/-- C8: for any nonzero amount and nonempty comment, a successful
`add_operation_to_active` appends exactly one fresh operation at the end of
the active shift's operation list (most-recent-last), raising the count by
exactly 1, and the per-shift income/expense/total immediately reflect the
new amount. -/
theorem claim8_add_operation_spec (st : Storage) (now : Nat) (amount : Int) (comment : String)
    (h : StoreInv st) (_hamount : amount ≠ 0) (_hcomment : comment ≠ "") :
    (st.add_operation_to_active now amount comment).1
      = ⟨(st.get_active_shift now).2.nextId, now, amount, comment⟩ ∧
    (st.add_operation_to_active now amount comment).2.active_shift_id
      = some (st.get_active_shift now).1.id ∧
    findShift? (st.add_operation_to_active now amount comment).2.shiftsList
        (st.get_active_shift now).1.id
      = some ⟨(st.get_active_shift now).1.id, (st.get_active_shift now).1.start_ts,
          (st.get_active_shift now).1.end_ts,
          (st.get_active_shift now).1.operations
            ++ [(st.add_operation_to_active now amount comment).1]⟩ ∧
    ((st.get_active_shift now).1.operations
        ++ [(st.add_operation_to_active now amount comment).1]).length
      = (st.get_active_shift now).1.operations.length + 1 ∧
    Shift.income ⟨(st.get_active_shift now).1.id, (st.get_active_shift now).1.start_ts,
        (st.get_active_shift now).1.end_ts,
        (st.get_active_shift now).1.operations
          ++ [(st.add_operation_to_active now amount comment).1]⟩
      = (st.get_active_shift now).1.income + (if amount > 0 then amount else 0) ∧
    Shift.expense ⟨(st.get_active_shift now).1.id, (st.get_active_shift now).1.start_ts,
        (st.get_active_shift now).1.end_ts,
        (st.get_active_shift now).1.operations
          ++ [(st.add_operation_to_active now amount comment).1]⟩
      = (st.get_active_shift now).1.expense + (if amount < 0 then -amount else 0) ∧
    Shift.total ⟨(st.get_active_shift now).1.id, (st.get_active_shift now).1.start_ts,
        (st.get_active_shift now).1.end_ts,
        (st.get_active_shift now).1.operations
          ++ [(st.add_operation_to_active now amount comment).1]⟩
      = (st.get_active_shift now).1.total + amount := by
  obtain ⟨-, hop, hact, hfind, -⟩ := add_op_spec st now amount comment h
  refine ⟨hop, hact, hfind, by simp, ?_, ?_, ?_⟩
  · rw [hop]
    simpa using income_append (st.get_active_shift now).1
      ⟨(st.get_active_shift now).2.nextId, now, amount, comment⟩
  · rw [hop]
    simpa using expense_append (st.get_active_shift now).1
      ⟨(st.get_active_shift now).2.nextId, now, amount, comment⟩
  · rw [hop]
    simpa using total_append (st.get_active_shift now).1
      ⟨(st.get_active_shift now).2.nextId, now, amount, comment⟩

/-- Witness for C8: adding the 1500 "Заказ" operation to the default store. -/
theorem claim8_witness :
    StoreInv defaultStorage ∧ (1500 : Int) ≠ 0 ∧ "Заказ" ≠ "" ∧
    ((defaultStorage.add_operation_to_active 0 1500 "Заказ").1
      = ⟨(defaultStorage.get_active_shift 0).2.nextId, 0, 1500, "Заказ"⟩ ∧
    (defaultStorage.add_operation_to_active 0 1500 "Заказ").2.active_shift_id
      = some (defaultStorage.get_active_shift 0).1.id ∧
    findShift? (defaultStorage.add_operation_to_active 0 1500 "Заказ").2.shiftsList
        (defaultStorage.get_active_shift 0).1.id
      = some ⟨(defaultStorage.get_active_shift 0).1.id,
          (defaultStorage.get_active_shift 0).1.start_ts,
          (defaultStorage.get_active_shift 0).1.end_ts,
          (defaultStorage.get_active_shift 0).1.operations
            ++ [(defaultStorage.add_operation_to_active 0 1500 "Заказ").1]⟩ ∧
    ((defaultStorage.get_active_shift 0).1.operations
        ++ [(defaultStorage.add_operation_to_active 0 1500 "Заказ").1]).length
      = (defaultStorage.get_active_shift 0).1.operations.length + 1 ∧
    Shift.income ⟨(defaultStorage.get_active_shift 0).1.id,
        (defaultStorage.get_active_shift 0).1.start_ts,
        (defaultStorage.get_active_shift 0).1.end_ts,
        (defaultStorage.get_active_shift 0).1.operations
          ++ [(defaultStorage.add_operation_to_active 0 1500 "Заказ").1]⟩
      = (defaultStorage.get_active_shift 0).1.income
          + (if (1500 : Int) > 0 then (1500 : Int) else 0) ∧
    Shift.expense ⟨(defaultStorage.get_active_shift 0).1.id,
        (defaultStorage.get_active_shift 0).1.start_ts,
        (defaultStorage.get_active_shift 0).1.end_ts,
        (defaultStorage.get_active_shift 0).1.operations
          ++ [(defaultStorage.add_operation_to_active 0 1500 "Заказ").1]⟩
      = (defaultStorage.get_active_shift 0).1.expense
          + (if (1500 : Int) < 0 then -(1500 : Int) else 0) ∧
    Shift.total ⟨(defaultStorage.get_active_shift 0).1.id,
        (defaultStorage.get_active_shift 0).1.start_ts,
        (defaultStorage.get_active_shift 0).1.end_ts,
        (defaultStorage.get_active_shift 0).1.operations
          ++ [(defaultStorage.add_operation_to_active 0 1500 "Заказ").1]⟩
      = (defaultStorage.get_active_shift 0).1.total + 1500) :=
  ⟨storeInv_default, by decide, by decide,
   claim8_add_operation_spec defaultStorage 0 1500 "Заказ" storeInv_default
     (by decide) (by decide)⟩

/-- C9 counterexample: loading a corrupt file does reset the store to
defaults without crashing, but the corrupt file is overwritten in place with
the serialized defaults; no copy of it is preserved under any other name
(the loader touches no file besides `self.path`). -/
theorem claim9_counterexample :
    (Storage.load ⟨some (.corrupt "garbage"), []⟩ 0).2
      = ⟨some (.parsed (rawOfStorage (defaultDataStorage 0))), []⟩ ∧
    (Storage.load ⟨some (.corrupt "garbage"), []⟩ 0).2.main ≠ some (.corrupt "garbage") ∧
    (Storage.load ⟨some (.corrupt "garbage"), []⟩ 0).2.aside = [] := by
  decide

/-- C9 (amended): when the persisted file fails to parse, `load` never
crashes: it reinitializes the in-memory store with defaults and immediately
overwrites the corrupt file in place with the serialized defaults.  The
corrupt data is not moved aside or preserved: no file other than the data
file itself is written. -/
theorem claim9_load_corrupt_resets (fs : FS) (nid : Nat) (blob : String)
    (h : fs.main = some (.corrupt blob)) :
    (Storage.load fs nid).1 = defaultDataStorage nid ∧
    (Storage.load fs nid).2.main
      = some (.parsed (rawOfStorage (defaultDataStorage nid))) ∧
    (Storage.load fs nid).2.aside = fs.aside := by
  cases fs with
  | mk main aside =>
    simp only at h
    subst h
    exact ⟨rfl, rfl, rfl⟩

/-- Witness for the amended C9 at a concrete corrupt file. -/
theorem claim9_witness :
    (⟨some (.corrupt "bad"), []⟩ : FS).main = some (.corrupt "bad") ∧
    ((Storage.load ⟨some (.corrupt "bad"), []⟩ 0).1 = defaultDataStorage 0 ∧
     (Storage.load ⟨some (.corrupt "bad"), []⟩ 0).2.main
       = some (.parsed (rawOfStorage (defaultDataStorage 0))) ∧
     (Storage.load ⟨some (.corrupt "bad"), []⟩ 0).2.aside
       = (⟨some (.corrupt "bad"), []⟩ : FS).aside) :=
  ⟨rfl, claim9_load_corrupt_resets ⟨some (.corrupt "bad"), []⟩ 0 "bad" rfl⟩
